import Mathlib

/-!
Opensearch-reindexer: a shallow embedding of `reindexer.go`

The program is a single-threaded pipeline of calls to a search cluster.  The
embedding makes the three things the Go code cannot see into explicit inputs:

* the cluster, as a function from the request that is issued to the pair
  `(*Response, error)` that `Do` hands back;
* the file system (`ioutil.ReadFile`) and the clock (`time.Now`);
* the JSON path lookup of `gjson.Get`.

Every function returns, next to its Go results, the list of requests it issued
(in order).  Go strings are Lean strings; an `error` is its message.  Console
output (`fmt.Print*`) is not part of the embedding, and therefore neither is
the `verbose` flag, which guards printing only.
-/

namespace Reindexer

/-! ## Data model -/

/-- A Go `error`, represented by the text of `Error()`. -/
abbrev GoError := String

/-- The part of `opensearchapi.Response` the program reads: the HTTP status
code and the body as delivered by `ioutil.ReadAll`. -/
structure Response where
  statusCode : Int
  body : String
  deriving DecidableEq, Repr

/-- What `request.Do(ctx, Es)` returns: a possibly nil response and a possibly
nil (transport) error. -/
structure DoResult where
  response : Option Response
  err : Option GoError
  deriving DecidableEq, Repr

/-- The typed requests of the `opensearchapi` package that the program builds,
each with the fields the program sets. -/
inductive Request where
  | putIndexTemplate (name : String) (body : String)
  | catAliases (name : String)
  | getSettings (index : String)
  | createIndex (index : String) (body : String)
  | reindex (body : String) (slices : String) (requestsPerSecond : Int) (waitForCompletion : Bool)
  | putSettings (index : String) (body : String)
  | updateAliases (body : String)
  | closeIndex (index : String)
  deriving DecidableEq, Repr

/-- The package-level flag variables of `reindexer.go` after `flag.Parse`.
The flag-parsing function exits before any request unless `aliasName` or
`oldIndex` is non-empty and a URL is given; the URL and the credentials only
configure the client and are not part of the embedding. -/
structure Config where
  aliasName : String
  oldIndex : String
  newIndex : String
  indexTemplateLocation : String
  requestsPerSecond : Int
  targetShardCount : Int
  indexTemplateName : String
  xtraAlias : String
  slice : String

/-- Everything outside the process: the cluster behind the client `Es`, the
file system, the `gjson.Get` lookup (JSON text, path, result of `.String()`),
and the current time already formatted with layout `2006-01-02-15-04`. -/
structure Env where
  respond : Request → DoResult
  readFile : String → Option String
  gjsonGet : String → String → String
  now : String

/-- How a Go call ends: it returns a value, or it stops with a run-time
fault (a nil dereference). -/
inductive Outcome (α : Type) where
  | ok (val : α)
  | fault
  deriving DecidableEq, Repr

/-- The requests a call issued together with what it gave back. -/
structure Step (α : Type) where
  trace : List Request
  result : α

/-- How the process ends: `main` returns, `os.Exit` is called, or a run-time
fault stops it. -/
inductive Exit where
  | returned
  | exited (code : Int)
  | fault
  deriving DecidableEq, Repr

/-! ## Library functions used by the program -/

/-- Decimal rendering of `strconv.Itoa`. -/
def itoa (n : Int) : String :=
  if n < 0 then "-" ++ Nat.repr n.natAbs else Nat.repr n.toNat

/-- Digits of `strconv.Atoi`: every character must be `0`..`9`; the value is
accumulated in base ten.  The empty digit string is rejected by the caller. -/
def parseDigits : List Char → Nat → Option Nat
  | [], acc => some acc
  | c :: cs, acc =>
    if '0' ≤ c ∧ c ≤ '9' then parseDigits cs (acc * 10 + (c.toNat - '0'.toNat)) else none

/-- Go `strconv.Atoi` on a 64-bit platform: an optional sign, at least one
decimal digit, nothing else, and a value inside the `int` range; `none` stands
for a non-nil error. -/
def atoi (s : String) : Option Int :=
  let neg := s.data.head? = some '-'
  let digits := if s.data.head? = some '-' ∨ s.data.head? = some '+' then s.data.tail else s.data
  if digits = [] then none
  else
    match parseDigits digits 0 with
    | none => none
    | some n =>
      if neg then (if n ≤ 2 ^ 63 then some (-(n : Int)) else none)
      else (if n < 2 ^ 63 then some (n : Int) else none)

/-- One step of `strings.EqualFold` against an ASCII lower-case letter `t`:
`c` is `t`, its upper-case form, or another member of the simple-folding orbit
of `t` (U+017F for `s`, U+212A for `k`). -/
def foldsTo (c t : Char) : Bool :=
  c = t || c.toLower = t || (t = 's' && c = Char.ofNat 0x17F) || (t = 'k' && c = Char.ofNat 0x212A)

/-- Go `strings.EqualFold s t` for a target `t` of ASCII lower-case letters:
same number of characters, equal position by position under simple case
folding. -/
def equalFold (s t : String) : Bool :=
  s.data.length = t.data.length && (List.zipWith foldsTo s.data t.data).all id

/-- Go `strings.Split s sep` for a one-character separator: the pieces between
the separators, one more than there are separators. -/
def splitChars (sep : Char) : List Char → List (List Char)
  | [] => [[]]
  | c :: cs =>
    if c = sep then [] :: splitChars sep cs
    else
      match splitChars sep cs with
      | [] => [[c]]
      | piece :: rest => (c :: piece) :: rest

/-- Go `strings.Split` specialised as above, on strings. -/
def stringsSplit (s : String) (sep : Char) : List String :=
  (splitChars sep s.data).map String.mk

/-- Scan for `strings.LastIndex`: `i` is the position of the head, `best` the
last match seen so far. -/
def lastIndexFrom (c : Char) : List Char → Nat → Int → Int
  | [], _, best => best
  | x :: xs, i, best => lastIndexFrom c xs (i + 1) (if x = c then (i : Int) else best)

/-- Go `strings.LastIndex s c` for a one-character ASCII needle: the position
of its last occurrence, `-1` when there is none.  Positions count characters;
for the needle `_` (one byte, never part of a longer UTF-8 sequence) the
characters before that position are exactly the bytes before Go's offset. -/
def stringsLastIndex (s : String) (c : Char) : Int :=
  lastIndexFrom c s.data 0 (-1)

/-- Go slice `s[:i]` at a character position. -/
def sliceTo (s : String) (i : Int) : String :=
  String.mk (s.data.take i.toNat)

/-- Go `filepath.IsAbs` on Unix: the path starts with a slash. -/
def isAbs (path : String) : Bool :=
  path.data.head? = some '/'

/-- Go `filepath.Base` on Unix: `.` for the empty path; trailing slashes are
stripped; the last element is returned, `/` if nothing is left. -/
def base (path : String) : String :=
  if path = "" then "."
  else
    let stripped := (path.data.reverse.dropWhile (fun c => c = '/'))
    let last := (stripped.takeWhile (fun c => c ≠ '/')).reverse
    if last = [] then "/" else String.mk last

/-! ## The program -/

/-- `getIndexSettingsRequest` (reindexer.go 314-332). -/
def getIndexSettingsRequest (templateLocation : String) (primaries : String) (shardSize : Int) :
    String :=
  let r0 := "\x7b\n\t\t  \"settings\": \x7b\n\t\t\t\"refresh_interval\": \"-1\",\n\t\t\t\"number_of_replicas\": 0"
  let r1 :=
    if templateLocation = "" then
      let r := r0 ++ ",\n\t\t\t\"number_of_shards\":"
      if shardSize > 0 then r ++ itoa shardSize else r ++ primaries
    else r0
  r1 ++ "\n\t\t  \x7d\n\t\t\x7d"

/-- `publishIndexTemplates` (reindexer.go 117-141).  The named result
`success` starts as `false`; a failed `ReadFile` leaves `bytes` empty. -/
def publishIndexTemplates (env : Env) (cfg : Config) (indexFilePath : String)
    (indexTemplateName : String) : Step Bool :=
  if isAbs indexFilePath then ⟨[], false⟩
  else
    let bytes := (env.readFile indexFilePath).getD ""
    if bytes.length > 0 then
      let name := if cfg.indexTemplateLocation = "" then base indexFilePath else indexTemplateName
      let req := Request.putIndexTemplate name bytes
      if (env.respond req).err = none then ⟨[req], true⟩ else ⟨[req], false⟩
    else ⟨[], false⟩

/-- `closeIndex` (reindexer.go 143-152). -/
def closeIndex (env : Env) (indexName : String) : Step (Option GoError) :=
  let req := Request.closeIndex indexName
  ⟨[req], (env.respond req).err⟩

/-- The body built by `switchAlias` (reindexer.go 161-187). -/
def updateAliasQuery (xtraAlias : String) (aliasName : String) (currentIndexName : String)
    (newIndexName : String) : String :=
  let q0 := "\x7b\n  \t\t\t\"actions\": [\n    \t\t\x7b\n      \t\t\t\"add\": \x7b\n        \t\t\"index\": \""
    ++ newIndexName ++ "\",\n        \t\t\"alias\": \""
    ++ aliasName ++ "\"\n      \t\t\x7d\t\n    \t\t\x7d,\x7b\n      \t\t\t\"remove\": \x7b\n         \t\t\t\"index\": \""
    ++ currentIndexName ++ "\",\n        \t\t\t\"alias\": \""
    ++ aliasName ++ "\"\n      \t\t\t\x7d\n    \t\t\x7d"
  let q1 :=
    if xtraAlias ≠ "" then
      q0 ++ ",\x7b\n      \t\t\t\"add\": \x7b\n        \t\t\"index\": \""
        ++ newIndexName ++ "\",\n        \t\t\"alias\": \""
        ++ xtraAlias ++ "\"\n      \t\t\x7d\t\n    \t\t\x7d,\x7b\n      \t\t\t\"remove\": \x7b\n         \t\t\t\"index\": \""
        ++ currentIndexName ++ "\",\n        \t\t\t\"alias\": \""
        ++ xtraAlias ++ "\"\n      \t\t\t\x7d\n    \t\t\x7d"
    else q0
  q1 ++ "]\x7d"

/-- `switchAlias` (reindexer.go 154-197).  The response is discarded; the
result is the error of `Do`. -/
def switchAlias (env : Env) (cfg : Config) (aliasName : String) (currentIndexName : String)
    (newIndexName : String) : Step (Option GoError) :=
  if aliasName = "" then ⟨[], none⟩
  else
    let req := Request.updateAliases
      (updateAliasQuery cfg.xtraAlias aliasName currentIndexName newIndexName)
    ⟨[req], (env.respond req).err⟩

/-- What `getIndexSettings` returns, with the requests it issued. -/
structure IndexSettings where
  trace : List Request
  refreshInterval : String
  primaries : String
  replicas : String
  err : Option GoError

/-- `getIndexSettings` (reindexer.go 253-269).  `err` is the named result, set
by `Do` only. -/
def getIndexSettings (env : Env) (currentIndexName : String) : IndexSettings :=
  let req := Request.getSettings currentIndexName
  let r := env.respond req
  match r.response with
  | none => ⟨[req], "", "", "", r.err⟩
  | some settingsResponse =>
    if settingsResponse.statusCode ≠ 200 then ⟨[req], "", "", "", r.err⟩
    else
      let jsonstr := settingsResponse.body
      ⟨[req],
        env.gjsonGet jsonstr (currentIndexName ++ ".settings.index.refresh_interval"),
        env.gjsonGet jsonstr (currentIndexName ++ ".settings.index.number_of_shards"),
        env.gjsonGet jsonstr (currentIndexName ++ ".settings.index.number_of_replicas"),
        r.err⟩

/-- `restoreIndexSettings` (reindexer.go 271-291): one put-settings request,
whose outcome is only printed. -/
def restoreIndexSettings (newIndexName : String) (refreshInterval : String)
    (replicas : String) : List Request :=
  [Request.putSettings newIndexName
    ("\x7b\n\t\t  \"settings\": \x7b\n\t\t\t\"refresh_interval\": \"" ++ refreshInterval
      ++ "\"\n\t\t\t, \"number_of_replicas\": " ++ replicas ++ "\n\t\t  \x7d\n\t\t\x7d")]

/-- Line 306 of reindexer.go, `errors.New("\nindex creation failed with " +
err.Error())`: calling `Error` on a nil `error` is a run-time fault. -/
def indexCreationFailed (err : Option GoError) : Outcome (Option GoError) :=
  match err with
  | some e => .ok (some ("\nindex creation failed with " ++ e))
  | none => .fault

/-- `createNewIndexWithReindexSettings` (reindexer.go 293-312). -/
def createNewIndexWithReindexSettings (env : Env) (cfg : Config) (newIndexName : String)
    (primaries : String) : Step (Outcome (Option GoError)) :=
  let indexSettingsRequest :=
    getIndexSettingsRequest cfg.indexTemplateLocation primaries cfg.targetShardCount
  let req := Request.createIndex newIndexName indexSettingsRequest
  let r := env.respond req
  match r.response with
  | none => ⟨[req], indexCreationFailed r.err⟩
  | some indexCreationResponse =>
    if indexCreationResponse.statusCode ≠ 200 then ⟨[req], indexCreationFailed r.err⟩
    else ⟨[req], .ok r.err⟩

/-- Lines 230-239 of `reindex`: the value assigned to `reindexRequest.Slices`. -/
def reindexSlices (slice : String) : String :=
  if !equalFold slice "disable" then
    match atoi slice with
    | none => "auto"
    | some _ => slice
  else slice

/-- The request built by `reindex` (reindexer.go 215-239). -/
def reindexRequest (cfg : Config) (currentIndexName : String) (newIndexName : String) : Request :=
  Request.reindex
    ("\x7b\n  \t\t\"source\": \x7b\n   \t\t\t \"index\": \"" ++ currentIndexName
      ++ "\"\n  \t\t\x7d,\n\t\t\"dest\": \x7b\n    \t\t\"index\": \"" ++ newIndexName
      ++ "\"\n  \t\t\x7d\n\t\x7d")
    (reindexSlices cfg.slice) cfg.requestsPerSecond true

/-- Lines 240-250 of `reindex`: issue the request, then either turn a
non-200 response into an error carrying its body, or restore the settings. -/
def reindexCall (env : Env) (cfg : Config) (currentIndexName : String) (newIndexName : String)
    (refreshInterval : String) (replicas : String) : Step (Option GoError) :=
  let req := reindexRequest cfg currentIndexName newIndexName
  let r := env.respond req
  match r.response with
  | some response =>
    if response.statusCode ≠ 200 then ⟨[req], some response.body⟩
    else ⟨req :: restoreIndexSettings newIndexName refreshInterval replicas, r.err⟩
  | none => ⟨req :: restoreIndexSettings newIndexName refreshInterval replicas, r.err⟩

/-- `reindex` (reindexer.go 199-251). -/
def reindex (env : Env) (cfg : Config) (currentIndexName : String) (newIndexName : String) :
    Step (Outcome (Option GoError)) :=
  let s := getIndexSettings env currentIndexName
  match s.err with
  | some e => ⟨s.trace, .ok (some e)⟩
  | none =>
    let c := createNewIndexWithReindexSettings env cfg newIndexName s.primaries
    match c.result with
    | .fault => ⟨s.trace ++ c.trace, .fault⟩
    | .ok (some e) => ⟨s.trace ++ c.trace, .ok (some e)⟩
    | .ok none =>
      let r := reindexCall env cfg currentIndexName newIndexName s.refreshInterval s.replicas
      ⟨s.trace ++ c.trace ++ r.trace, .ok r.result⟩

/-- `getNewIndexName` (reindexer.go 334-354); `now` is
`time.Now().Format("2006-01-02-15-04")`. -/
def getNewIndexName (cfg : Config) (now : String) (currentIndexName : String) : String :=
  if cfg.newIndex ≠ "" then cfg.newIndex
  else
    let lastIndex := stringsLastIndex currentIndexName '_'
    let indexSuffix := now
    let indexHead := if lastIndex > 0 then sliceTo currentIndexName lastIndex else currentIndexName
    indexHead ++ "_" ++ indexSuffix

/-- The body of `if err == nil` in `getCurrentIndexName` (reindexer.go
372-385), given the response of the cat-aliases call.  It yields the new value
of the result `indexName` and of the variable `err` declared by `:=` on line
369.  Reading `StatusCode` of a nil response is a run-time fault. -/
def readAliasListing (aliasResponse : Option Response) : Outcome (String × Option GoError) :=
  match aliasResponse with
  | none => .fault
  | some resp =>
    if resp.statusCode = 200 then
      let split := stringsSplit resp.body ' '
      if split.length > 2 then .ok (split.getD 1 "", none)
      else .ok ("", some "alias doesn't exist")
    else .ok ("", none)

/-- `getCurrentIndexName` (reindexer.go 356-389).  The `err` assigned inside
the `if aliasName != ""` block is the variable declared there by `:=`; the
named result `err`, which the final bare `return` hands back, is never
assigned and stays nil. -/
def getCurrentIndexName (env : Env) (cfg : Config) : Step (Outcome (String × Option GoError)) :=
  if cfg.oldIndex ≠ "" then ⟨[], .ok (cfg.oldIndex, none)⟩
  else if cfg.aliasName ≠ "" then
    let req := Request.catAliases cfg.aliasName
    let r := env.respond req
    match r.err with
    | some _ => ⟨[req], .ok ("", none)⟩
    | none =>
      match readAliasListing r.response with
      | .fault => ⟨[req], .fault⟩
      | .ok (indexName, _) => ⟨[req], .ok (indexName, none)⟩
  else ⟨[], .ok ("", none)⟩

/-- The result of a whole run: every request issued, in order, and how the
process ended. -/
structure Run where
  trace : List Request
  exit : Exit

/-- The tail of `main` after a successful `reindex` (reindexer.go 95-108). -/
def afterReindex (env : Env) (cfg : Config) (oldIndex : String) (newIndex : String) :
    List Request :=
  let sw := switchAlias env cfg cfg.aliasName oldIndex newIndex
  match sw.result with
  | none =>
    if cfg.aliasName ≠ "" then sw.trace ++ (closeIndex env oldIndex).trace else sw.trace
  | some _ => sw.trace

/-- `main` after flag parsing (reindexer.go 82-115). -/
def main (env : Env) (cfg : Config) : Run :=
  let p := publishIndexTemplates env cfg cfg.indexTemplateLocation cfg.indexTemplateName
  let g := getCurrentIndexName env cfg
  match g.result with
  | .fault => ⟨p.trace ++ g.trace, .fault⟩
  | .ok (_, some _) => ⟨p.trace ++ g.trace, .exited (-1)⟩
  | .ok (oldIndex, none) =>
    let newIndex := getNewIndexName cfg env.now oldIndex
    let r := reindex env cfg oldIndex newIndex
    match r.result with
    | .fault => ⟨p.trace ++ g.trace ++ r.trace, .fault⟩
    | .ok (some _) => ⟨p.trace ++ g.trace ++ r.trace, .exited (-1)⟩
    | .ok none =>
      ⟨p.trace ++ g.trace ++ r.trace ++ afterReindex env cfg oldIndex newIndex, .returned⟩

/-! ## Vocabulary of the properties -/

/-- Whether `pat` occurs in `s` as a contiguous run of characters. -/
def occursIn (pat : String) (s : String) : Bool :=
  s.data.tails.any (fun t => pat.data.isPrefixOf t)

/-- The create-index body as the design describes it: the two settings that
are always present, then the shard count when there is one. -/
def settingsBody (shards : Option String) : String :=
  "\x7b\n\t\t  \"settings\": \x7b\n\t\t\t\"refresh_interval\": \"-1\",\n\t\t\t\"number_of_replicas\": 0"
    ++ (match shards with
        | some v => ",\n\t\t\t\"number_of_shards\":" ++ v
        | none => "")
    ++ "\n\t\t  \x7d\n\t\t\x7d"

/-- One entry of the `actions` array of an update-aliases request. -/
inductive AliasAction where
  | add (index : String) (aliasName : String)
  | remove (index : String) (aliasName : String)
  deriving DecidableEq, Repr

/-- A JSON token of an update-aliases body. -/
inductive Token where
  | lbrace
  | rbrace
  | lbracket
  | rbracket
  | colon
  | comma
  | str (s : String)
  deriving DecidableEq, Repr

/-- Where the JSON reader stands: between tokens, inside a string (with the
characters read so far, last first), or just after a backslash in a string. -/
inductive LexState where
  | outside
  | inside (cur : List Char)
  | escaped (cur : List Char)

/-- The structural characters of JSON that occur in an update-aliases body. -/
def punctuation (c : Char) : Option Token :=
  if c = '\x7b' then some .lbrace
  else if c = '\x7d' then some .rbrace
  else if c = '[' then some .lbracket
  else if c = ']' then some .rbracket
  else if c = ':' then some .colon
  else if c = ',' then some .comma
  else none

/-- The character a two-character JSON escape stands for; `\u` escapes are
not read. -/
def unescape (c : Char) : Option Char :=
  if c = '"' then some '"'
  else if c = '\\' then some '\\'
  else if c = '/' then some '/'
  else if c = 'b' then some (Char.ofNat 8)
  else if c = 'f' then some (Char.ofNat 12)
  else if c = 'n' then some '\n'
  else if c = 'r' then some '\r'
  else if c = 't' then some '\t'
  else none

/-- Cut a JSON text into tokens, as a JSON reader does: white space between
tokens is skipped, a string runs to the first quote that is not escaped, a
backslash escapes the next character, and a raw control character inside a
string, or any other character outside one, makes the text unreadable. -/
def lexJson : List Char → LexState → List Token → Option (List Token)
  | [], .outside, acc => some acc.reverse
  | [], .inside _, _ => none
  | [], .escaped _, _ => none
  | c :: cs, .outside, acc =>
    if c = '"' then lexJson cs (.inside []) acc
    else if c = ' ' ∨ c = '\t' ∨ c = '\n' ∨ c = '\r' then lexJson cs .outside acc
    else
      match punctuation c with
      | some t => lexJson cs .outside (t :: acc)
      | none => none
  | c :: cs, .inside cur, acc =>
    if c = '"' then lexJson cs .outside (.str (String.mk cur.reverse) :: acc)
    else if c = '\\' then lexJson cs (.escaped cur) acc
    else if c.toNat < 0x20 then none
    else lexJson cs (.inside (c :: cur)) acc
  | c :: cs, .escaped cur, acc =>
    match unescape c with
    | some u => lexJson cs (.inside (u :: cur)) acc
    | none => none

/-- The action spelled by the object with key `kind` whose value has the keys
`k1` and `k2`. -/
def mkAction (kind k1 index k2 aliasName : String) : Option AliasAction :=
  if k1 = "index" ∧ k2 = "alias" then
    if kind = "add" then some (.add index aliasName)
    else if kind = "remove" then some (.remove index aliasName)
    else none
  else none

/-- The actions spelled by the tokens of an `actions` array, up to and
including the two closing brackets of the body. -/
def parseActionList : List Token → Option (List AliasAction)
  | .lbrace :: .str kind :: .colon :: .lbrace :: .str k1 :: .colon :: .str index :: .comma
      :: .str k2 :: .colon :: .str aliasName :: .rbrace :: .rbrace :: rest =>
    match mkAction kind k1 index k2 aliasName with
    | none => none
    | some act =>
      match rest with
      | [.rbracket, .rbrace] => some [act]
      | .comma :: more => (parseActionList more).map (fun acts => act :: acts)
      | _ => none
  | _ => none

/-- The actions that the receiver of an update-aliases body reads from it:
all of them, in order; `none` when the text is not a JSON object with the one
key `actions` holding an array of add and remove actions. -/
def readActions (body : String) : Option (List AliasAction) :=
  match lexJson body.data .outside [] with
  | some (.lbrace :: .str key :: .colon :: .lbracket :: rest) =>
    if key = "actions" then parseActionList rest else none
  | _ => none

/-- A name that JSON takes as it stands between two quotes: no double quote,
no backslash, no control character. -/
def isPlain (s : String) : Bool :=
  s.data.all (fun c => c ≠ '"' && c ≠ '\\' && decide (0x20 ≤ c.toNat))

/-- The slice string parses as a positive integer. -/
def parsesPositive (s : String) : Bool :=
  match atoi s with
  | some n => decide (0 < n)
  | none => false

/-- Slice normalisation as the design words it: kept when it is the literal
`disable` or a positive integer, `auto` otherwise. -/
def slicesPerDesign (s : String) : String :=
  if s = "disable" ∨ parsesPositive s = true then s else "auto"

/-- Recognisers for the kinds of request. -/
def Request.isCreateIndex : Request → Bool
  | .createIndex _ _ => true
  | _ => false

/-- See `Request.isCreateIndex`. -/
def Request.isReindex : Request → Bool
  | .reindex _ _ _ _ => true
  | _ => false

/-- See `Request.isCreateIndex`. -/
def Request.isPutSettings : Request → Bool
  | .putSettings _ _ => true
  | _ => false

/-- See `Request.isCreateIndex`. -/
def Request.isUpdateAliases : Request → Bool
  | .updateAliases _ => true
  | _ => false

/-- See `Request.isCreateIndex`. -/
def Request.isCloseIndex : Request → Bool
  | .closeIndex _ => true
  | _ => false

/-- An HTTP status in the 2xx range. -/
def isSuccessStatus (st : Int) : Prop := 200 ≤ st ∧ st < 300

/-! ## Concrete runs -/

/-- A cluster that answers every request with status 200 and an empty body. -/
def respondOk : Request → DoResult :=
  fun _ => ⟨some ⟨200, ""⟩, none⟩

/-- A settings lookup for the index `logs_v3`: refresh interval `30s`, three
primary shards, one replica. -/
def lookupLogsV3 : String → String → String :=
  fun _ path =>
    if path = "logs_v3.settings.index.refresh_interval" then "30s"
    else if path = "logs_v3.settings.index.number_of_shards" then "3"
    else if path = "logs_v3.settings.index.number_of_replicas" then "1"
    else ""

/-- The surroundings of the concrete runs: no readable file, the settings of
`logs_v3`, a fixed clock. -/
def envOf (respond : Request → DoResult) : Env :=
  ⟨respond, fun _ => none, lookupLogsV3, "2024-01-01-10-00"⟩

/-- Flags `-index logs_v3 -url ...`. -/
def cfgIndex : Config :=
  ⟨"", "logs_v3", "", "", -1, -1, "", "", "auto"⟩

/-- Flags `-alias prod -index logs_v3 -url ...`. -/
def cfgAliasIndex : Config :=
  ⟨"prod", "logs_v3", "", "", -1, -1, "", "", "auto"⟩

/-- Flags `-alias prod -url ...`. -/
def cfgAlias : Config :=
  ⟨"prod", "", "", "", -1, -1, "", "", "auto"⟩

/-- Flags `-index logs_v3 -template-location /etc/reindexer/logs.json -url ...`. -/
def cfgTemplate : Config :=
  ⟨"", "logs_v3", "", "/etc/reindexer/logs.json", -1, -1, "", "", "auto"⟩

/-- Flags `-index logs_v3 -template-location logs.json -url ...`, with no
template name. -/
def cfgTemplateRelative : Config :=
  ⟨"", "logs_v3", "", "logs.json", -1, -1, "", "", "auto"⟩

/-- An alias name, as given to `-alias`, that holds a double quote. -/
def quotedAlias : String :=
  "prod\"\x7d\x7d,\x7b\"add\":\x7b\"index\":\"victim\",\"alias\":\"x"

/-- Flags `-alias <quotedAlias> -index a -new-index b -url ...`. -/
def cfgQuotedAlias : Config :=
  ⟨quotedAlias, "a", "b", "", -1, -1, "", "", "auto"⟩

/-- The cluster answers get-settings with 404 and everything else with 200. -/
def respondSettings404 : Request → DoResult
  | .getSettings _ => ⟨some ⟨404, "no such index"⟩, none⟩
  | _ => ⟨some ⟨200, ""⟩, none⟩

/-- The cluster answers update-aliases with 500 and everything else with 200. -/
def respondAliases500 : Request → DoResult
  | .updateAliases _ => ⟨some ⟨500, "alias update rejected"⟩, none⟩
  | _ => ⟨some ⟨200, ""⟩, none⟩

/-- The cluster answers create-index with 400 and everything else with 200. -/
def respondCreate400 : Request → DoResult
  | .createIndex _ _ => ⟨some ⟨400, "resource_already_exists_exception"⟩, none⟩
  | _ => ⟨some ⟨200, ""⟩, none⟩

/-- The cluster answers reindex with 500 and everything else with 200. -/
def respondReindex500 : Request → DoResult
  | .reindex _ _ _ _ => ⟨some ⟨500, "shard failure"⟩, none⟩
  | _ => ⟨some ⟨200, ""⟩, none⟩

/-- The cluster answers cat-aliases with status 200 and an empty listing, and
everything else with 200. -/
def respondNoAlias : Request → DoResult
  | .catAliases _ => ⟨some ⟨200, ""⟩, none⟩
  | _ => ⟨some ⟨200, ""⟩, none⟩

/-- Surroundings in which the template file exists and is not empty. -/
def envTemplateFile : Env :=
  ⟨respondOk,
    fun path =>
      if path = "/etc/reindexer/logs.json" ∨ path = "logs.json" then some "template-body" else none,
    lookupLogsV3, "2024-01-01-10-00"⟩

/-! ## Facts about the library functions -/

theorem lastIndexFrom_not_mem (c : Char) (xs : List Char) (i : Nat) (best : Int)
    (h : c ∉ xs) : lastIndexFrom c xs i best = best := by
  induction xs generalizing i best with
  | nil => rfl
  | cons x xs ih =>
    have hx : x ≠ c := fun hxc => h (by simp [hxc])
    have hxs : c ∉ xs := fun hm => h (List.mem_cons_of_mem _ hm)
    simp [lastIndexFrom, hx, ih (i + 1) best hxs]

theorem lastIndexFrom_append (c : Char) (p r : List Char) (i : Nat) (best : Int)
    (h : c ∉ r) : lastIndexFrom c (p ++ c :: r) i best = ((i + p.length : Nat) : Int) := by
  induction p generalizing i best with
  | nil => simp [lastIndexFrom, lastIndexFrom_not_mem c r _ _ h]
  | cons x p ih =>
    show lastIndexFrom c (p ++ c :: r) (i + 1) (if x = c then (i : Int) else best)
      = ((i + (x :: p).length : Nat) : Int)
    rw [ih (i + 1), List.length_cons]
    congr 1
    omega

theorem exists_last_occurrence (c : Char) (xs : List Char) (h : c ∈ xs) :
    ∃ p r, xs = p ++ c :: r ∧ c ∉ r := by
  induction xs with
  | nil => simp at h
  | cons x xs ih =>
    by_cases hm : c ∈ xs
    · obtain ⟨p, r, hpr, hr⟩ := ih hm
      exact ⟨x :: p, r, by simp [hpr], hr⟩
    · have hx : c = x := by
        rcases List.mem_cons.mp h with h1 | h1
        · exact h1
        · exact absurd h1 hm
      exact ⟨[], xs, by simp [hx], hm⟩

theorem stringsLastIndex_split (s : String) (p r : List Char) (hs : s.data = p ++ '_' :: r)
    (hr : '_' ∉ r) : stringsLastIndex s '_' = (p.length : Int) := by
  unfold stringsLastIndex
  rw [hs, lastIndexFrom_append '_' p r 0 (-1) hr]
  simp

/-! ## Index provisioning -/

/-- The four cases of `Test_getIndexSettingsRequest` (reindexer_test.go). -/
theorem test_getIndexSettingsRequest :
    getIndexSettingsRequest "" "1" 4
        = "\x7b\n\t\t  \"settings\": \x7b\n\t\t\t\"refresh_interval\": \"-1\",\n\t\t\t\"number_of_replicas\": 0,\n\t\t\t\"number_of_shards\":4\n\t\t  \x7d\n\t\t\x7d"
      ∧ getIndexSettingsRequest "dummyLocation" "5" 4
        = "\x7b\n\t\t  \"settings\": \x7b\n\t\t\t\"refresh_interval\": \"-1\",\n\t\t\t\"number_of_replicas\": 0\n\t\t  \x7d\n\t\t\x7d"
      ∧ getIndexSettingsRequest "" "5" (-1)
        = "\x7b\n\t\t  \"settings\": \x7b\n\t\t\t\"refresh_interval\": \"-1\",\n\t\t\t\"number_of_replicas\": 0,\n\t\t\t\"number_of_shards\":5\n\t\t  \x7d\n\t\t\x7d"
      ∧ getIndexSettingsRequest "" "5" 0
        = "\x7b\n\t\t  \"settings\": \x7b\n\t\t\t\"refresh_interval\": \"-1\",\n\t\t\t\"number_of_replicas\": 0,\n\t\t\t\"number_of_shards\":5\n\t\t  \x7d\n\t\t\x7d" := by
  refine ⟨by decide, by decide, by decide, by decide⟩

/-- C1: for every template location, primaries string and shard size,
`getIndexSettingsRequest` returns the body with `refresh_interval` `"-1"` and
`number_of_replicas` 0 that carries `number_of_shards` exactly when the
template location is empty, with the decimal rendering of the shard size when
that is positive and the primaries string otherwise; the body without the
field (the one returned for a non-empty location) does not mention
`number_of_shards`, the body with it does, and both set the two fixed
settings. -/
theorem getIndexSettingsRequest_body (templateLocation primaries : String) (shardSize : Int) :
    getIndexSettingsRequest templateLocation primaries shardSize
        = settingsBody (if templateLocation = "" then
            some (if 0 < shardSize then itoa shardSize else primaries) else none)
      ∧ occursIn "number_of_shards" (settingsBody none) = false
      ∧ (∀ v, ∃ rest, settingsBody (some v)
          = "\x7b\n\t\t  \"settings\": \x7b\n\t\t\t\"refresh_interval\": \"-1\",\n\t\t\t\"number_of_replicas\": 0,\n\t\t\t\"number_of_shards\":"
            ++ v ++ rest)
      ∧ (∀ shards, ∃ rest, settingsBody shards
          = "\x7b\n\t\t  \"settings\": \x7b\n\t\t\t\"refresh_interval\": \"-1\",\n\t\t\t\"number_of_replicas\": 0"
            ++ rest) := by
  refine ⟨?_, by decide, ?_, ?_⟩
  · unfold getIndexSettingsRequest settingsBody
    by_cases h : templateLocation = "" <;> by_cases h2 : 0 < shardSize <;>
      simp only [h, h2, String.append_assoc, if_true, if_false, gt_iff_lt, String.empty_append]
  · intro v
    refine ⟨"\n\t\t  \x7d\n\t\t\x7d", ?_⟩
    have e : "\x7b\n\t\t  \"settings\": \x7b\n\t\t\t\"refresh_interval\": \"-1\",\n\t\t\t\"number_of_replicas\": 0,\n\t\t\t\"number_of_shards\":"
        = "\x7b\n\t\t  \"settings\": \x7b\n\t\t\t\"refresh_interval\": \"-1\",\n\t\t\t\"number_of_replicas\": 0"
          ++ ",\n\t\t\t\"number_of_shards\":" := by decide
    simp only [settingsBody, e, String.append_assoc]
  · intro shards
    exact ⟨(match shards with
        | some v => ",\n\t\t\t\"number_of_shards\":" ++ v
        | none => "") ++ "\n\t\t  \x7d\n\t\t\x7d",
      by simp only [settingsBody, String.append_assoc]⟩

/-! ## Destination name -/

/-- C8: with an explicit new-index override `getNewIndexName` returns the
override; without one it returns the part of the source name before its last
`_` when that `_` is at a position greater than 0, and the whole source name
otherwise, followed by `_` and the formatted timestamp. -/
theorem getNewIndexName_spec (cfg : Config) (t : String) (s : String) :
    (cfg.newIndex ≠ "" → getNewIndexName cfg t s = cfg.newIndex)
      ∧ (cfg.newIndex = "" → ∀ p r : List Char, s.data = p ++ '_' :: r → '_' ∉ r → p ≠ [] →
          getNewIndexName cfg t s = String.mk p ++ "_" ++ t)
      ∧ (cfg.newIndex = "" →
          (∀ p r : List Char, s.data = p ++ '_' :: r → '_' ∉ r → p = []) →
          getNewIndexName cfg t s = s ++ "_" ++ t)
      ∧ (cfg.newIndex = "" → getNewIndexName cfg t "logs_v3" = "logs_" ++ t) := by
  refine ⟨?_, ?_, ?_, ?_⟩
  · intro h
    simp [getNewIndexName, h]
  · intro h p r hs hr hp
    have hlen : 0 < p.length := List.length_pos.mpr hp
    have hidx := stringsLastIndex_split s p r hs hr
    have hpos : stringsLastIndex s '_' > 0 := by rw [hidx]; exact_mod_cast hlen
    simp only [getNewIndexName, h, ne_eq, not_true_eq_false, if_false, hpos, if_true]
    simp [sliceTo, hidx, hs]
  · intro h hall
    have hle : ¬ stringsLastIndex s '_' > 0 := by
      by_cases hm : '_' ∈ s.data
      · obtain ⟨p, r, hs, hr⟩ := exists_last_occurrence '_' s.data hm
        have hp := hall p r hs hr
        rw [stringsLastIndex_split s p r hs hr, hp]
        simp
      · unfold stringsLastIndex
        rw [lastIndexFrom_not_mem '_' s.data 0 (-1) hm]
        decide
    simp only [getNewIndexName, h, ne_eq, not_true_eq_false, if_false, hle]
  · intro h
    have hidx : stringsLastIndex "logs_v3" '_' = 4 := by decide
    have hcut : sliceTo "logs_v3" 4 = "logs" := by decide
    have hlit : "logs_" = "logs" ++ "_" := by decide
    simp only [getNewIndexName, h, ne_eq, not_true_eq_false, if_false, hidx, hcut, hlit]
    simp

/-- C8, at the source name `logs_v3`: the derived name is `logs_` followed by
the timestamp. -/
theorem getNewIndexName_spec_witness :
    getNewIndexName cfgIndex "2024-01-01-10-00" "logs_v3" = "logs_2024-01-01-10-00" :=
  (getNewIndexName_spec cfgIndex "2024-01-01-10-00" "logs_v3").2.1 rfl
    ['l', 'o', 'g', 's'] ['v', '3'] rfl (by decide) (by decide)

/-! ## Slices -/

/-- C7, as written, fails: `0` and `DISABLE` are neither the literal
`disable` nor a positive integer, so the design sends `auto`, but the program
sends them unchanged. -/
theorem reindexSlices_differs_from_design :
    reindexSlices "0" = "0" ∧ slicesPerDesign "0" = "auto"
      ∧ reindexSlices "DISABLE" = "DISABLE" ∧ slicesPerDesign "DISABLE" = "auto"
      ∧ ¬ (∀ s : String, reindexSlices s = slicesPerDesign s) := by
  refine ⟨by decide, by decide, by decide, by decide, ?_⟩
  intro h
  exact absurd (h "0") (by decide)

/-- C7, amended: the slices value of the reindex request is the configured
string itself when that string equals `disable` under case folding or is
accepted by `strconv.Atoi` (any integer, of either sign or zero), and `auto`
in every other case; the literal `disable` and every positive integer are
thereby kept, `auto`, `disable` and `8` pass through unchanged and `banana`
becomes `auto`. -/
theorem reindexSlices_spec (cfg : Config) (src dst : String) (s : String) :
    (∃ body, reindexRequest cfg src dst
        = Request.reindex body (reindexSlices cfg.slice) cfg.requestsPerSecond true)
      ∧ reindexSlices s
          = (if equalFold s "disable" = true ∨ (atoi s).isSome = true then s else "auto")
      ∧ (s = "disable" ∨ parsesPositive s = true → reindexSlices s = s)
      ∧ reindexSlices "auto" = "auto" ∧ reindexSlices "disable" = "disable"
      ∧ reindexSlices "8" = "8" ∧ reindexSlices "banana" = "auto" := by
  refine ⟨⟨_, rfl⟩, ?_, ?_, by decide, by decide, by decide, by decide⟩
  · unfold reindexSlices
    by_cases hf : equalFold s "disable" = true
    · simp [hf]
    · cases ha : atoi s <;> simp [hf]
  · rintro (h | h)
    · subst h
      decide
    · unfold reindexSlices
      unfold parsesPositive at h
      cases ha : atoi s with
      | none => simp [ha] at h
      | some n => by_cases hf : equalFold s "disable" = true <;> simp [hf]

/-- C7 amended, at the slice string `16`. -/
theorem reindexSlices_spec_witness : reindexSlices "16" = "16" :=
  (reindexSlices_spec cfgIndex "logs_v3" "logs_new" "16").2.2.1 (Or.inr (by decide))

/-! ## Alias switch -/

set_option maxRecDepth 100000

theorem lexJson_plain (n : List Char) (rest : List Char) (cur : List Char) (acc : List Token)
    (h : ∀ c ∈ n, c ≠ '"' ∧ c ≠ '\\' ∧ 0x20 ≤ c.toNat) :
    lexJson (n ++ rest) (.inside cur) acc = lexJson rest (.inside (n.reverse ++ cur)) acc := by
  induction n generalizing cur with
  | nil => rfl
  | cons c n ih =>
    obtain ⟨h1, h2, h3⟩ := h c (List.mem_cons_self _ _)
    have h3' : ¬ c.toNat < 0x20 := by omega
    have hn : ∀ c' ∈ n, c' ≠ '"' ∧ c' ≠ '\\' ∧ 0x20 ≤ c'.toNat :=
      fun c' hc' => h c' (List.mem_cons_of_mem _ hc')
    show lexJson (c :: (n ++ rest)) (.inside cur) acc = _
    rw [lexJson]
    simp only [h1, h2, h3', if_false]
    rw [ih (c :: cur) hn]
    simp

theorem isPlain_chars (s : String) (h : isPlain s = true) :
    ∀ c ∈ s.data, c ≠ '"' ∧ c ≠ '\\' ∧ 0x20 ≤ c.toNat := by
  intro c hc
  unfold isPlain at h
  have := List.all_eq_true.mp h c hc
  simp only [Bool.and_eq_true, bne_iff_ne, ne_eq, decide_eq_true_eq] at this
  exact ⟨this.1.1, this.1.2, this.2⟩

theorem lexJson_name (n : String) (rest : List Char) (acc : List Token)
    (h : isPlain n = true) :
    lexJson (n.data ++ rest) (.inside []) acc = lexJson rest (.inside n.data.reverse) acc := by
  rw [lexJson_plain n.data rest [] acc (isPlain_chars n h)]
  simp

theorem lexJson_head (rest : List Char) (acc : List Token) :
    lexJson ("\x7b\n  \t\t\t\"actions\": [\n    \t\t\x7b\n      \t\t\t\"add\": \x7b\n        \t\t\"index\": \"".data ++ rest) .outside acc
      = lexJson rest (.inside [])
          (.colon :: .str "index" :: .lbrace :: .colon :: .str "add" :: .lbrace :: .lbracket
            :: .colon :: .str "actions" :: .lbrace :: acc) := rfl

theorem lexJson_alias_of_add (rest cur : List Char) (acc : List Token) :
    lexJson ("\",\n        \t\t\"alias\": \"".data ++ rest) (.inside cur) acc
      = lexJson rest (.inside [])
          (.colon :: .str "alias" :: .comma :: .str (String.mk cur.reverse) :: acc) := rfl

theorem lexJson_alias_of_remove (rest cur : List Char) (acc : List Token) :
    lexJson ("\",\n        \t\t\t\"alias\": \"".data ++ rest) (.inside cur) acc
      = lexJson rest (.inside [])
          (.colon :: .str "alias" :: .comma :: .str (String.mk cur.reverse) :: acc) := rfl

theorem lexJson_open_remove (rest cur : List Char) (acc : List Token) :
    lexJson ("\"\n      \t\t\x7d\t\n    \t\t\x7d,\x7b\n      \t\t\t\"remove\": \x7b\n         \t\t\t\"index\": \"".data ++ rest) (.inside cur) acc
      = lexJson rest (.inside [])
          (.colon :: .str "index" :: .lbrace :: .colon :: .str "remove" :: .lbrace :: .comma
            :: .rbrace :: .rbrace :: .str (String.mk cur.reverse) :: acc) := rfl

theorem lexJson_close_remove (rest cur : List Char) (acc : List Token) :
    lexJson ("\"\n      \t\t\t\x7d\n    \t\t\x7d".data ++ rest) (.inside cur) acc
      = lexJson rest .outside (.rbrace :: .rbrace :: .str (String.mk cur.reverse) :: acc) := rfl

theorem lexJson_open_add (rest : List Char) (acc : List Token) :
    lexJson (",\x7b\n      \t\t\t\"add\": \x7b\n        \t\t\"index\": \"".data ++ rest) .outside acc
      = lexJson rest (.inside [])
          (.colon :: .str "index" :: .lbrace :: .colon :: .str "add" :: .lbrace :: .comma
            :: acc) := rfl

theorem lexJson_end (acc : List Token) :
    lexJson "]\x7d".data .outside acc = some (List.reverse (.rbrace :: .rbracket :: acc)) := rfl

theorem mk_reverse_reverse (n : String) : String.mk n.data.reverse.reverse = n := by
  rw [List.reverse_reverse]

theorem readActions_plain (a s d : String) (ha : isPlain a = true) (hs : isPlain s = true)
    (hd : isPlain d = true) :
    readActions (updateAliasQuery "" a s d) = some [.add d a, .remove s a] := by
  simp only [readActions, updateAliasQuery, ne_eq, not_true_eq_false, if_false,
    String.data_append, List.append_assoc]
  rw [lexJson_head, lexJson_name d _ _ hd, lexJson_alias_of_add, lexJson_name a _ _ ha,
    lexJson_open_remove, lexJson_name s _ _ hs, lexJson_alias_of_remove, lexJson_name a _ _ ha,
    lexJson_close_remove, lexJson_end]
  simp only [mk_reverse_reverse]
  rfl

theorem readActions_plain_extra (x a s d : String) (hx : x ≠ "") (hpx : isPlain x = true)
    (ha : isPlain a = true) (hs : isPlain s = true) (hd : isPlain d = true) :
    readActions (updateAliasQuery x a s d)
      = some [.add d a, .remove s a, .add d x, .remove s x] := by
  simp only [readActions, updateAliasQuery, ne_eq, hx, not_false_eq_true, if_true,
    String.data_append, List.append_assoc]
  rw [lexJson_head, lexJson_name d _ _ hd, lexJson_alias_of_add, lexJson_name a _ _ ha,
    lexJson_open_remove, lexJson_name s _ _ hs, lexJson_alias_of_remove, lexJson_name a _ _ ha,
    lexJson_close_remove, lexJson_open_add, lexJson_name d _ _ hd, lexJson_alias_of_add,
    lexJson_name x _ _ hpx, lexJson_open_remove, lexJson_name s _ _ hs,
    lexJson_alias_of_remove, lexJson_name x _ _ hpx, lexJson_close_remove, lexJson_end]
  simp only [mk_reverse_reverse]
  rfl

/-- C9, as written, fails: the body is built by concatenation without
escaping, so for an alias name that holds a double quote the single request
carries four actions, two of them adds of another alias to another index, not
one add and one remove of the configured alias; a doubled backslash in the
name is read as one, and a tab in the name makes the body unreadable. -/
theorem switchAlias_quoted_alias_other_actions :
    (switchAlias (envOf respondOk) cfgQuotedAlias quotedAlias "a" "b").trace
        = [Request.updateAliases (updateAliasQuery "" quotedAlias "a" "b")]
      ∧ readActions (updateAliasQuery "" quotedAlias "a" "b")
        = some [.add "b" "prod", .add "victim" "x", .remove "a" "prod", .add "victim" "x"]
      ∧ readActions (updateAliasQuery "" "pro\\\\d" "a" "b")
        = some [.add "b" "pro\\d", .remove "a" "pro\\d"]
      ∧ readActions (updateAliasQuery "" "pro\td" "a" "b") = none
      ∧ ¬ (∀ (env : Env) (cfg : Config) (a s d : String), a ≠ "" → cfg.xtraAlias = "" →
          ∃ body, (switchAlias env cfg a s d).trace = [Request.updateAliases body]
            ∧ readActions body = some [.add d a, .remove s a]) := by
  have htrace : (switchAlias (envOf respondOk) cfgQuotedAlias quotedAlias "a" "b").trace
      = [Request.updateAliases (updateAliasQuery "" quotedAlias "a" "b")] := by decide
  have hread : readActions (updateAliasQuery "" quotedAlias "a" "b")
      = some [.add "b" "prod", .add "victim" "x", .remove "a" "prod", .add "victim" "x"] := by
    decide
  refine ⟨htrace, hread, by decide, by decide, ?_⟩
  intro h
  obtain ⟨body, hb, hr⟩ := h (envOf respondOk) cfgQuotedAlias quotedAlias "a" "b" (by decide) rfl
  rw [htrace] at hb
  have hbody : updateAliasQuery "" quotedAlias "a" "b" = body := by
    injection hb with h1 _
    injection h1
  rw [← hbody, hread] at hr
  exact absurd hr (by decide)

/-- C9, amended: for a non-empty alias name, a source index, a destination
index and an extra alias (if any) that hold no double quote, backslash or
control character, `switchAlias` issues exactly one request, an update-aliases
request, and the actions read from its body are exactly the add of the alias
to the destination and its remove from the source, followed, when an extra
alias is configured, by the add and the remove of the extra alias; no other
action is in the request. -/
theorem switchAlias_plain_actions (env : Env) (cfg : Config) (a s d : String) (ha : a ≠ "")
    (hpa : isPlain a = true) (hps : isPlain s = true) (hpd : isPlain d = true)
    (hpx : isPlain cfg.xtraAlias = true) :
    ∃ body, (switchAlias env cfg a s d).trace = [Request.updateAliases body]
      ∧ readActions body
        = some (if cfg.xtraAlias = "" then [.add d a, .remove s a]
            else [.add d a, .remove s a, .add d cfg.xtraAlias, .remove s cfg.xtraAlias]) := by
  refine ⟨updateAliasQuery cfg.xtraAlias a s d, ?_, ?_⟩
  · simp only [switchAlias, ha, if_false]
  · by_cases hx : cfg.xtraAlias = ""
    · rw [hx, if_pos rfl]
      exact readActions_plain a s d hpa hps hpd
    · rw [if_neg hx]
      exact readActions_plain_extra cfg.xtraAlias a s d hx hpx hpa hps hpd

/-- C9 amended, for alias `prod`, source `a`, destination `b` and no extra
alias: one request with one add (`prod` to `b`) and one remove (`prod` from
`a`). -/
theorem switchAlias_plain_actions_witness :
    (isPlain "prod" = true ∧ isPlain "a" = true ∧ isPlain "b" = true)
      ∧ ∃ body, (switchAlias (envOf respondOk) cfgAliasIndex "prod" "a" "b").trace
          = [Request.updateAliases body]
        ∧ readActions body
          = some (if cfgAliasIndex.xtraAlias = "" then [.add "b" "prod", .remove "a" "prod"]
              else [.add "b" "prod", .remove "a" "prod", .add "b" cfgAliasIndex.xtraAlias,
                .remove "a" cfgAliasIndex.xtraAlias]) :=
  ⟨by decide,
    switchAlias_plain_actions (envOf respondOk) cfgAliasIndex "prod" "a" "b" (by decide)
      (by decide) (by decide) (by decide) (by decide)⟩

/-! ## The workflow -/

theorem publishIndexTemplates_trace (env : Env) (cfg : Config) (f n : String) :
    ∀ r ∈ (publishIndexTemplates env cfg f n).trace,
      r.isUpdateAliases = false ∧ r.isPutSettings = false := by
  intro r hr
  simp only [publishIndexTemplates] at hr
  split_ifs at hr <;> simp at hr <;> subst hr <;> exact ⟨rfl, rfl⟩

theorem getCurrentIndexName_trace (env : Env) (cfg : Config) :
    ∀ r ∈ (getCurrentIndexName env cfg).trace,
      r.isUpdateAliases = false ∧ r.isPutSettings = false := by
  intro r hr
  simp only [getCurrentIndexName] at hr
  split_ifs at hr
  · simp at hr
  · split at hr
    · simp at hr; subst hr; exact ⟨rfl, rfl⟩
    · split at hr <;> simp at hr <;> subst hr <;> exact ⟨rfl, rfl⟩
  · simp at hr

theorem getIndexSettings_trace (env : Env) (src : String) :
    (getIndexSettings env src).trace = [Request.getSettings src] := by
  simp only [getIndexSettings]
  split
  · rfl
  · split_ifs <;> rfl

theorem createNewIndexWithReindexSettings_trace (env : Env) (cfg : Config) (dst p : String) :
    ∃ body, (createNewIndexWithReindexSettings env cfg dst p).trace
      = [Request.createIndex dst body] := by
  simp only [createNewIndexWithReindexSettings]
  split
  · exact ⟨_, rfl⟩
  · split_ifs <;> exact ⟨_, rfl⟩

/-- C6: when the snapshot and the index creation succeed and the reindex call
comes back with a non-success status and body `B`, `reindex` returns an error
whose message is exactly `B` and issues no put-settings request; in the
workflow that reaches this call the process exits with -1 having issued no
update-aliases and no put-settings request. -/
theorem reindex_failure_aborts (env : Env) (cfg : Config) (src dst : String) (st : Int)
    (B : String) (e : Option GoError)
    (hsnap : (getIndexSettings env src).err = none)
    (hcreate : (createNewIndexWithReindexSettings env cfg dst
      (getIndexSettings env src).primaries).result = .ok none)
    (hresp : env.respond (reindexRequest cfg src dst) = ⟨some ⟨st, B⟩, e⟩)
    (hst : ¬ isSuccessStatus st) :
    (reindex env cfg src dst).result = .ok (some B)
      ∧ (∀ r ∈ (reindex env cfg src dst).trace, r.isPutSettings = false)
      ∧ ((getCurrentIndexName env cfg).result = .ok (src, none) →
          dst = getNewIndexName cfg env.now src →
          (main env cfg).exit = .exited (-1)
            ∧ ∀ r ∈ (main env cfg).trace, r.isUpdateAliases = false ∧ r.isPutSettings = false) := by
  have h200 : st ≠ 200 := by
    intro h
    exact hst ⟨by omega, by omega⟩
  have hcall : ∀ ri rep, reindexCall env cfg src dst ri rep
      = ⟨[reindexRequest cfg src dst], some B⟩ := by
    intro ri rep
    simp only [reindexCall, hresp, h200, ne_eq, not_false_eq_true, if_true]
  have hre : reindex env cfg src dst
      = ⟨(getIndexSettings env src).trace
          ++ (createNewIndexWithReindexSettings env cfg dst (getIndexSettings env src).primaries).trace
          ++ [reindexRequest cfg src dst], .ok (some B)⟩ := by
    simp only [reindex, hsnap, hcreate, hcall]
  have htrace : ∀ r ∈ (reindex env cfg src dst).trace,
      r.isUpdateAliases = false ∧ r.isPutSettings = false := by
    intro r hr
    obtain ⟨body, hb⟩ := createNewIndexWithReindexSettings_trace env cfg dst
      (getIndexSettings env src).primaries
    rw [hre, getIndexSettings_trace, hb] at hr
    simp at hr
    rcases hr with h | h | h <;> subst h <;> exact ⟨rfl, rfl⟩
  refine ⟨by rw [hre], fun r hr => (htrace r hr).2, ?_⟩
  intro hg hdst
  subst hdst
  have hres : (reindex env cfg src (getNewIndexName cfg env.now src)).result = .ok (some B) := by
    rw [hre]
  have hmain : main env cfg
      = ⟨(publishIndexTemplates env cfg cfg.indexTemplateLocation cfg.indexTemplateName).trace
          ++ (getCurrentIndexName env cfg).trace
          ++ (reindex env cfg src (getNewIndexName cfg env.now src)).trace, .exited (-1)⟩ := by
    simp only [main, hg, hres]
  refine ⟨by rw [hmain], ?_⟩
  intro r hr
  rw [hmain] at hr
  simp only [List.mem_append] at hr
  rcases hr with (h | h) | h
  · exact publishIndexTemplates_trace _ _ _ _ r h
  · exact getCurrentIndexName_trace _ _ r h
  · exact htrace r h

/-- C6, on a cluster that answers the reindex call with status 500 and body
`shard failure`. -/
theorem reindex_failure_aborts_witness :
    (reindex (envOf respondReindex500) cfgAliasIndex "logs_v3" "logs_2024-01-01-10-00").result
        = .ok (some "shard failure")
      ∧ (main (envOf respondReindex500) cfgAliasIndex).exit = .exited (-1)
      ∧ ∀ r ∈ (main (envOf respondReindex500) cfgAliasIndex).trace,
          r.isUpdateAliases = false ∧ r.isPutSettings = false :=
  have h := reindex_failure_aborts (envOf respondReindex500) cfgAliasIndex "logs_v3"
    "logs_2024-01-01-10-00" 500 "shard failure" none (by decide) (by decide) (by decide)
    (by unfold isSuccessStatus; decide)
  ⟨h.1, (h.2.2 (by decide) (by decide)).1, (h.2.2 (by decide) (by decide)).2⟩

/-! ## Where the program departs from its description -/

/-- C2 fails on the code: `getIndexSettings` hands back the error of `Do` and
nothing else, so a 404 answer without transport error yields a nil error and
empty settings, and `reindex` goes on to create the index, reindex and restore
the settings. -/
theorem getIndexSettings_status_ignored :
    (∀ (env : Env) (name : String),
        (getIndexSettings env name).err = (env.respond (Request.getSettings name)).err)
      ∧ respondSettings404 (Request.getSettings "logs_v3")
          = ⟨some ⟨404, "no such index"⟩, none⟩
      ∧ (getIndexSettings (envOf respondSettings404) "logs_v3").err = none
      ∧ (getIndexSettings (envOf respondSettings404) "logs_v3").primaries = ""
      ∧ (reindex (envOf respondSettings404) cfgIndex "logs_v3" "logs_new").result = .ok none
      ∧ (reindex (envOf respondSettings404) cfgIndex "logs_v3" "logs_new").trace.map
          (fun r => (r.isCreateIndex, r.isReindex, r.isPutSettings))
          = [(false, false, false), (true, false, false), (false, true, false),
              (false, false, true)]
      ∧ (main (envOf respondSettings404) cfgIndex).exit = .returned := by
  refine ⟨?_, rfl, by decide, by decide, by decide, by decide, by decide⟩
  intro env name
  simp only [getIndexSettings]
  split
  · rfl
  · split_ifs <;> rfl

/-- C3 fails on the code: `switchAlias` returns the error of `Do` without
looking at the status, so after an update-aliases answer of 500 the workflow
still closes the old index. -/
theorem main_closes_index_after_rejected_alias_update :
    (∀ body, respondAliases500 (Request.updateAliases body)
        = ⟨some ⟨500, "alias update rejected"⟩, none⟩)
      ∧ (switchAlias (envOf respondAliases500) cfgAliasIndex "prod" "logs_v3"
          "logs_2024-01-01-10-00").result = none
      ∧ (main (envOf respondAliases500) cfgAliasIndex).trace.map
          (fun r => (r.isUpdateAliases, r.isCloseIndex))
          = [(false, false), (false, false), (false, false), (false, false), (true, false),
              (false, true)]
      ∧ (main (envOf respondAliases500) cfgAliasIndex).trace.getLast?
          = some (Request.closeIndex "logs_v3")
      ∧ (main (envOf respondAliases500) cfgAliasIndex).exit = .returned := by
  refine ⟨fun _ => rfl, by decide, by decide, by decide, by decide⟩

/-- C4 fails on the code: the error built for a listing with fewer than three
tokens is stored in the variable declared inside the block, so
`getCurrentIndexName` never returns a non-nil error; with an empty listing it
returns the empty index name and a nil error, and the workflow carries on. -/
theorem getCurrentIndexName_error_never_returned :
    (∀ (env : Env) (cfg : Config),
        (getCurrentIndexName env cfg).result = .fault
          ∨ ∃ name, (getCurrentIndexName env cfg).result = .ok (name, none))
      ∧ (stringsSplit "" ' ').length = 1
      ∧ readAliasListing (some ⟨200, ""⟩) = .ok ("", some "alias doesn't exist")
      ∧ (getCurrentIndexName (envOf respondNoAlias) cfgAlias).result = .ok ("", none)
      ∧ (getCurrentIndexName (envOf respondNoAlias) cfgAlias).trace
          = [Request.catAliases "prod"]
      ∧ (main (envOf respondNoAlias) cfgAlias).trace.take 2
          = [Request.catAliases "prod", Request.getSettings ""]
      ∧ (main (envOf respondNoAlias) cfgAlias).exit = .returned := by
  refine ⟨?_, by decide, by decide, by decide, by decide, by decide, by decide⟩
  intro env cfg
  simp only [getCurrentIndexName]
  split_ifs
  · exact Or.inr ⟨_, rfl⟩
  · split
    · exact Or.inr ⟨_, rfl⟩
    · split
      · exact Or.inl rfl
      · exact Or.inr ⟨_, rfl⟩
  · exact Or.inr ⟨_, rfl⟩

/-- C5 fails on the code: after a create-index answer of 400 without
transport error, line 306 calls `Error` on a nil error, so
`createNewIndexWithReindexSettings` stops with a run-time fault instead of
returning an error, and so does the workflow. -/
theorem createNewIndexWithReindexSettings_faults_on_rejection :
    (∀ index body, respondCreate400 (Request.createIndex index body)
        = ⟨some ⟨400, "resource_already_exists_exception"⟩, none⟩)
      ∧ (createNewIndexWithReindexSettings (envOf respondCreate400) cfgIndex
          "logs_2024-01-01-10-00" "3").result = .fault
      ∧ (reindex (envOf respondCreate400) cfgIndex "logs_v3" "logs_2024-01-01-10-00").result
          = .fault
      ∧ (main (envOf respondCreate400) cfgIndex).exit = .fault := by
  refine ⟨fun _ _ => rfl, by decide, by decide, by decide⟩

/-- C10 fails on the code: for the absolute path of a readable, non-empty
template file `publishIndexTemplates` issues no request and returns false; and
for a relative path with no template name the template is published under the
empty name, not under the base name of the file. -/
theorem publishIndexTemplates_skips_absolute_path :
    isAbs "/etc/reindexer/logs.json" = true
      ∧ envTemplateFile.readFile "/etc/reindexer/logs.json" = some "template-body"
      ∧ (publishIndexTemplates envTemplateFile cfgTemplate "/etc/reindexer/logs.json" "").trace
          = []
      ∧ (publishIndexTemplates envTemplateFile cfgTemplate "/etc/reindexer/logs.json" "").result
          = false
      ∧ (publishIndexTemplates envTemplateFile cfgTemplateRelative "logs.json" "").trace
          = [Request.putIndexTemplate "" "template-body"]
      ∧ base "logs.json" = "logs.json" := by
  refine ⟨by decide, by decide, by decide, by decide, by decide, by decide⟩

end Reindexer
